import Mathlib

/-!
Verification of the distributed segment-claim manager
(`src/distributed/redisSegmentClaimManager.ts` of `@eleven-am/transcoder`).

The Redis store is modelled as a partial map from keys to entries; an entry
carries the stored value together with the TTL (in ms) that was attached by
the write that produced it.  Stored values are either plain strings or the
JSON-encoded lock record `{workerId, expiresAt}`; the Lua scripts decode the
record and compare its `workerId` field, which the embedding mirrors with the
`RVal.lockRecord` constructor.  All time-dependent operations take the
current clock value `now` explicitly (the TypeScript uses `Date.now()`).
-/

/-- A value stored under a Redis key: either a plain string (status and
completion markers) or the JSON-encoded lock record `{workerId, expiresAt}`
written by `claimSegment` and rewritten by the extend script. -/
inductive RVal where
  | str (s : String)
  | lockRecord (workerId : String) (expiresAt : Nat)
deriving DecidableEq, Repr

/-- A stored entry: the value plus the TTL (PX argument, in milliseconds)
attached by the write that created it. -/
structure Entry where
  val : RVal
  ttl : Nat
deriving DecidableEq, Repr

/-- The key-value store: a partial map from key strings to entries. -/
abbrev Store := String → Option Entry

/-- Redis `SET key value PX ttl`: write the entry, overwriting any old one. -/
def Store.set (s : Store) (k : String) (v : RVal) (px : Nat) : Store :=
  fun x => if x = k then some ⟨v, px⟩ else s x

/-- Redis `DEL key`: remove the entry, if any. -/
def Store.del (s : Store) (k : String) : Store :=
  fun x => if x = k then none else s x

/-- Source field `lockPrefix = 'transcoder:segment:lock:'` (line 28). -/
def lockPfx : String := "transcoder:segment:lock:"

/-- Source field `statusPrefix = 'transcoder:segment:status:'` (line 30). -/
def statusPfx : String := "transcoder:segment:status:"

/-- Source field `completedPrefix = 'transcoder:segment:completed:'` (line 32). -/
def completedPfx : String := "transcoder:segment:completed:"

/-- The pub/sub channel prefix `'transcoder:segment:complete:'`
(lines 159 and 220). -/
def completeChannelPfx : String := "transcoder:segment:complete:"

/-- Source field `poolSize = 5` (line 38). -/
def poolSize : Nat := 5

/-- The immutable configuration of a `RedisSegmentClaimManager`:
`workerId`, `defaultTTL` and `completedSegmentTTL` (lines 34-48). -/
structure RedisSegmentClaimManager where
  workerId : String
  defaultTTL : Nat
  completedSegmentTTL : Nat
deriving DecidableEq, Repr

/-- The constructor (lines 42-49): `defaultTTL` defaults to 60000 ms, and
`completedSegmentTTL = completedSegmentTTL || 7*24*60*60*1000`, where the
JavaScript `||` also replaces an explicit `0` by the default. -/
def mkManager (workerId : String) (defaultTTL : Option Nat)
    (completedSegmentTTL : Option Nat) : RedisSegmentClaimManager :=
  { workerId := workerId,
    defaultTTL := defaultTTL.getD 60000,
    completedSegmentTTL :=
      match completedSegmentTTL with
      | some v => if v = 0 then 7 * 24 * 60 * 60 * 1000 else v
      | none => 7 * 24 * 60 * 60 * 1000 }

/-- Model of `getSegmentKey` (lines 273-281): the template literal
`` `${fileId}:${streamType}:${quality}:${streamIndex}:${segmentIndex}` ``,
with the numeric indices rendered in decimal. -/
def getSegmentKey (fileId streamType quality : String)
    (streamIndex segmentIndex : Nat) : String :=
  fileId ++ ":" ++ streamType ++ ":" ++ quality ++ ":"
    ++ Nat.repr streamIndex ++ ":" ++ Nat.repr segmentIndex

/-- The data fields of a `SegmentClaim` object (interface fields `acquired`,
`segmentKey`, `workerId`, `expiresAt`).  The `extend`/`release` closures are
embedded as `SegmentClaim.extend` / `SegmentClaim.release` below; which
behaviour a claim carries is determined by the constructor that built it
(`createFailedClaim` always sets `acquired := false`,
`createSuccessfulClaim` always sets `acquired := true`), so the embedding
dispatches on `acquired`. -/
structure SegmentClaim where
  acquired : Bool
  segmentKey : String
  workerId : String
  expiresAt : Nat
deriving DecidableEq, Repr

/-- Model of `createFailedClaim` (lines 283-292): unacquired claim with
`expiresAt = 0` and no-op `extend`/`release`. -/
def createFailedClaim (mgr : RedisSegmentClaimManager)
    (segmentKey : String) : SegmentClaim :=
  { acquired := false, segmentKey := segmentKey,
    workerId := mgr.workerId, expiresAt := 0 }

/-- The data part of `createSuccessfulClaim` (lines 294-303). -/
def createSuccessfulClaim (mgr : RedisSegmentClaimManager)
    (segmentKey : String) (expiresAt : Nat) : SegmentClaim :=
  { acquired := true, segmentKey := segmentKey,
    workerId := mgr.workerId, expiresAt := expiresAt }

/-- The Lua script run by an acquired claim's `extend` (lines 306-318):
read `KEYS[1]`; if present, decode and compare `data.workerId` with
`ARGV[1]`; on a match rewrite the record with `expiresAt = ARGV[2]` and
`PX ARGV[3]` and return 1, else return 0.  The protocol writes only lock
records under lock keys, so the embedding maps the unreachable case of a
plain-string value there to the script's failure result 0. -/
def extendScript (s : Store) (lockKey workerId : String)
    (newExpiry px : Nat) : Nat × Store :=
  match s lockKey with
  | some e =>
      match e.val with
      | RVal.lockRecord w _ =>
          if w = workerId then
            (1, Store.set s lockKey (RVal.lockRecord w newExpiry) px)
          else (0, s)
      | RVal.str _ => (0, s)
  | none => (0, s)

/-- The Lua script run by an acquired claim's `release` (lines 330-339):
read `KEYS[1]`; if present and `data.workerId == ARGV[1]`, delete the key
and return the `DEL` count (1 for an existing key), else return 0. -/
def releaseScript (s : Store) (lockKey workerId : String) : Nat × Store :=
  match s lockKey with
  | some e =>
      match e.val with
      | RVal.lockRecord w _ =>
          if w = workerId then (1, Store.del s lockKey)
          else (0, s)
      | RVal.str _ => (0, s)
  | none => (0, s)

/-- The `extend` closure of a claim (lines 289 and 304-327): a failed
claim's `extend` is `async () => false`; a successful claim's `extend`
evaluates `extendScript` on the captured `lockKey` with
`ARGV = [workerId, Date.now() + defaultTTL, defaultTTL]` and returns
`result === 1`. -/
def SegmentClaim.extend (c : SegmentClaim) (mgr : RedisSegmentClaimManager)
    (now : Nat) (s : Store) : Bool × Store :=
  if c.acquired then
    let r := extendScript s (lockPfx ++ c.segmentKey) mgr.workerId
      (now + mgr.defaultTTL) mgr.defaultTTL
    (r.1 == 1, r.2)
  else (false, s)

/-- The `release` closure of a claim (lines 290 and 328-345): a failed
claim's `release` is `async () => {}` (no store operation at all); a
successful claim's `release` evaluates `releaseScript` and discards the
returned count (the outer function resolves void). -/
def SegmentClaim.release (c : SegmentClaim) (mgr : RedisSegmentClaimManager)
    (s : Store) : Store :=
  if c.acquired then (releaseScript s (lockPfx ++ c.segmentKey) mgr.workerId).2
  else s

/-- Model of `claimSegment` (lines 54-86): `SET lockKey record NX PX defaultTTL`;
on failure (key already present) return the failed claim and leave the
store untouched; on success also write the `processing` status with
`PX defaultTTL * 2` and return the successful claim with
`expiresAt = now + defaultTTL`. -/
def claimSegment (mgr : RedisSegmentClaimManager) (now : Nat)
    (fileId streamType quality : String) (streamIndex segmentIndex : Nat)
    (s : Store) : SegmentClaim × Store :=
  let segmentKey := getSegmentKey fileId streamType quality streamIndex segmentIndex
  let lockKey := lockPfx ++ segmentKey
  let expiresAt := now + mgr.defaultTTL
  match s lockKey with
  | some _ => (createFailedClaim mgr segmentKey, s)
  | none =>
      let s1 := Store.set s lockKey
        (RVal.lockRecord mgr.workerId expiresAt) mgr.defaultTTL
      let s2 := Store.set s1 (statusPfx ++ segmentKey)
        (RVal.str "processing") (mgr.defaultTTL * 2)
      (createSuccessfulClaim mgr segmentKey expiresAt, s2)

/-- Model of `isSegmentCompleted` (lines 91-103): `GET completedKey`, comparing the
result with the string `'true'` (a missing key or any other value,
including a JSON lock record, gives `false`). -/
def isSegmentCompleted (mgr : RedisSegmentClaimManager)
    (fileId streamType quality : String) (streamIndex segmentIndex : Nat)
    (s : Store) : Bool :=
  match s (completedPfx ++ getSegmentKey fileId streamType quality streamIndex segmentIndex) with
  | some e => e.val == RVal.str "true"
  | none => false

/-- Model of `markSegmentCompleted` (lines 108-130): write `'true'` under the
completion key and `'completed'` under the status key, both with
`PX completedSegmentTTL`. -/
def markSegmentCompleted (mgr : RedisSegmentClaimManager)
    (fileId streamType quality : String) (streamIndex segmentIndex : Nat)
    (s : Store) : Store :=
  let segmentKey := getSegmentKey fileId streamType quality streamIndex segmentIndex
  let s1 := Store.set s (completedPfx ++ segmentKey)
    (RVal.str "true") mgr.completedSegmentTTL
  Store.set s1 (statusPfx ++ segmentKey)
    (RVal.str "completed") mgr.completedSegmentTTL

/-- Model of `getSegmentStatus` (lines 135-146): raw `GET` of the status key. -/
def getSegmentStatus (mgr : RedisSegmentClaimManager)
    (fileId streamType quality : String) (streamIndex segmentIndex : Nat)
    (s : Store) : Option RVal :=
  (s (statusPfx ++ getSegmentKey fileId streamType quality streamIndex segmentIndex)).map Entry.val

/-- Model of `publishSegmentComplete` (lines 151-162): the channel/payload pair
published for a segment. -/
def publishSegmentComplete (fileId streamType quality : String)
    (streamIndex segmentIndex : Nat) : String × String :=
  (completeChannelPfx ++ getSegmentKey fileId streamType quality streamIndex segmentIndex,
   "completed")

/-- A subscriber connection handle (a duplicated Redis client).  `subId`
identifies the handle; `isOpen` is its connection state as observed by the
pool code. -/
structure Subscriber where
  subId : Nat
  isOpen : Bool
deriving DecidableEq, Repr

/-- The manager's mutable pool state: `subscriberPool` (line 36, a JS array
used as a stack via `push`/`pop` at the end) and the `disposed` flag
(line 40). -/
structure PoolState where
  subscriberPool : List Subscriber
  disposed : Bool
deriving DecidableEq, Repr

/-- Model of `getSubscriber` (lines 167-179): `pop()` the last pooled handle; if one
came off and is still open, return it; otherwise (empty pool or stale
handle) create a fresh connected handle (`duplicate()` + `connect()`,
modelled as `⟨freshId, true⟩`).  Returns the new pool state and the handle
handed to the caller. -/
def getSubscriber (st : PoolState) (freshId : Nat) : PoolState × Subscriber :=
  match st.subscriberPool.getLast? with
  | some sub =>
      if sub.isOpen then
        ({ st with subscriberPool := st.subscriberPool.dropLast }, sub)
      else
        ({ st with subscriberPool := st.subscriberPool.dropLast },
         { subId := freshId, isOpen := true })
  | none => (st, { subId := freshId, isOpen := true })

/-- Model of `releaseSubscriber` (lines 184-206): if disposed or the handle is not
open, disconnect it (errors swallowed); else if the pool has room
(`length < poolSize`), `push` it; else disconnect it.  The `Bool` result
records whether `disconnect` was called on the handle. -/
def releaseSubscriber (st : PoolState) (sub : Subscriber) : PoolState × Bool :=
  if st.disposed || !sub.isOpen then
    (st, true)
  else if st.subscriberPool.length < poolSize then
    ({ st with subscriberPool := st.subscriberPool ++ [sub] }, false)
  else
    (st, true)

/-- Model of `dispose` (lines 253-271): set the `disposed` flag, snapshot and empty
the pool.  Returns the new state and the snapshot (every open handle of the
snapshot then gets `disconnect()`, cf. `disposeDisconnects`). -/
def dispose (st : PoolState) : PoolState × List Subscriber :=
  ({ subscriberPool := [], disposed := true }, st.subscriberPool)

/-- The snapshotted handles on which `dispose` invokes `disconnect`
(line 263 guards with `isOpen`). -/
def disposeDisconnects (st : PoolState) : List Subscriber :=
  st.subscriberPool.filter (fun sub => sub.isOpen)

/-- One pool-touching action: an acquisition (`getSubscriber`, with the
identity of the fresh handle it would create), a release, or `dispose`. -/
inductive PoolOp where
  | acquire (freshId : Nat)
  | release (sub : Subscriber)
  | disposeOp
deriving DecidableEq, Repr

/-- The pool-state effect of one action. -/
def poolStep (st : PoolState) (op : PoolOp) : PoolState :=
  match op with
  | PoolOp.acquire freshId => (getSubscriber st freshId).1
  | PoolOp.release sub => (releaseSubscriber st sub).1
  | PoolOp.disposeOp => (dispose st).1

/-- The pool state after a sequence of actions. -/
def runPool (st : PoolState) (ops : List PoolOp) : PoolState :=
  ops.foldl poolStep st

/-- Releasing a batch of handles one after the other. -/
def releaseAll (st : PoolState) (subs : List Subscriber) : PoolState :=
  subs.foldl (fun s sub => (releaseSubscriber s sub).1) st

/-- The message handler installed by `subscribeToSegmentComplete`
(lines 225-229): the callback fires iff the message equals `'completed'`. -/
def messageHandler (message : String) : Bool :=
  message == "completed"

/-- Model of `subscribeToSegmentComplete` (lines 211-248): compute the channel,
acquire a handle, then try `subscriber.subscribe(channel, handler)`.
`subErr = some e` models a setup failure throwing `e`: the handle is put
through `releaseSubscriber` and the same error is re-thrown.  `subErr =
none` models success: the handler is installed and the handle stays in use
(not pooled, not disconnected).  The result is the outcome (error, or the
in-use handle with its channel and handler), the new pool state, and
whether the handle was disconnected. -/
def subscribeToSegmentComplete (st : PoolState) (freshId : Nat)
    (fileId streamType quality : String) (streamIndex segmentIndex : Nat)
    (subErr : Option Nat) :
    Except Nat (Subscriber × String × (String → Bool)) × PoolState × Bool :=
  let channel := completeChannelPfx ++ getSegmentKey fileId streamType quality streamIndex segmentIndex
  let g := getSubscriber st freshId
  match subErr with
  | some e =>
      let r := releaseSubscriber g.1 g.2
      (Except.error e, r.1, r.2)
  | none => (Except.ok (g.2, channel, messageHandler), g.1, false)

theorem Store.get_set_self (s : Store) (k : String) (v : RVal) (px : Nat) :
    Store.set s k v px k = some ⟨v, px⟩ := by
  simp [Store.set]

theorem Store.get_set_ne (s : Store) (k k' : String) (v : RVal) (px : Nat)
    (h : k' ≠ k) : Store.set s k v px k' = s k' := by
  simp [Store.set, h]

theorem Store.get_del_ne (s : Store) (k k' : String) (h : k' ≠ k) :
    Store.del s k k' = s k' := by
  simp [Store.del, h]

theorem lock_key_ne_status_key (k : String) :
    lockPfx ++ k ≠ statusPfx ++ k := by
  intro h
  have h2 := congrArg String.length h
  rw [String.length_append, String.length_append] at h2
  have hl : lockPfx.length = 24 := rfl
  have hs : statusPfx.length = 26 := rfl
  omega

theorem status_key_ne_lock_key (k : String) :
    statusPfx ++ k ≠ lockPfx ++ k :=
  fun h => lock_key_ne_status_key k h.symm

theorem completed_key_ne_lock_key (k : String) :
    completedPfx ++ k ≠ lockPfx ++ k := by
  intro h
  have h2 := congrArg String.length h
  rw [String.length_append, String.length_append] at h2
  have hc : completedPfx.length = 29 := rfl
  have hl : lockPfx.length = 24 := rfl
  omega

theorem completed_key_ne_status_key (k : String) :
    completedPfx ++ k ≠ statusPfx ++ k := by
  intro h
  have h2 := congrArg String.length h
  rw [String.length_append, String.length_append] at h2
  have hc : completedPfx.length = 29 := rfl
  have hs : statusPfx.length = 26 := rfl
  omega

theorem extendScript_owner (s : Store) (lk w : String) (ne px e ttl0 : Nat)
    (h : s lk = some ⟨RVal.lockRecord w e, ttl0⟩) :
    extendScript s lk w ne px = (1, Store.set s lk (RVal.lockRecord w ne) px) := by
  unfold extendScript
  rw [h]
  simp

theorem extendScript_not_owner (s : Store) (lk w : String) (ne px : Nat)
    (h : ∀ e ttl0, s lk ≠ some ⟨RVal.lockRecord w e, ttl0⟩) :
    extendScript s lk w ne px = (0, s) := by
  unfold extendScript
  cases hs : s lk with
  | none => rfl
  | some entry =>
      cases hv : entry.val with
      | str v => cases entry; simp at hv; subst hv; rfl
      | lockRecord w' e' =>
          cases entry
          simp at hv
          subst hv
          simp only []
          rcases eq_or_ne w' w with rfl | hw
          · exact absurd hs (h e' _)
          · simp [hw]

theorem releaseScript_owner (s : Store) (lk w : String) (e ttl0 : Nat)
    (h : s lk = some ⟨RVal.lockRecord w e, ttl0⟩) :
    releaseScript s lk w = (1, Store.del s lk) := by
  unfold releaseScript
  rw [h]
  simp

theorem releaseScript_not_owner (s : Store) (lk w : String)
    (h : ∀ e ttl0, s lk ≠ some ⟨RVal.lockRecord w e, ttl0⟩) :
    releaseScript s lk w = (0, s) := by
  unfold releaseScript
  cases hs : s lk with
  | none => rfl
  | some entry =>
      cases hv : entry.val with
      | str v => cases entry; simp at hv; subst hv; rfl
      | lockRecord w' e' =>
          cases entry
          simp at hv
          subst hv
          simp only []
          rcases eq_or_ne w' w with rfl | hw
          · exact absurd hs (h e' _)
          · simp [hw]

theorem releaseScript_frame (s : Store) (lk w k : String) (h : k ≠ lk) :
    (releaseScript s lk w).2 k = s k := by
  unfold releaseScript
  cases hs : s lk with
  | none => rfl
  | some entry =>
      cases entry with
      | mk v ttl0 =>
          cases v with
          | str v => rfl
          | lockRecord w' e' =>
              simp only []
              rcases eq_or_ne w' w with rfl | hw
              · simp [Store.del, h]
              · simp [hw]

/-- C1: when the conditional-create of the lock record fails because a
record is already present, `claimSegment` returns a claim with
`acquired = false` and `expiresAt = 0` whose `extend` always yields `false`
and whose `release` performs no store operation, and the store is left
untouched; and of two claim attempts on the same segment where the first
created the record, only the first gets `acquired = true`. -/
theorem claimSegment_contention_spec
    (mgr mgr' : RedisSegmentClaimManager) (now now' : Nat)
    (fileId streamType quality : String) (streamIndex segmentIndex : Nat)
    (s : Store) :
    (∀ e, s (lockPfx ++ getSegmentKey fileId streamType quality streamIndex segmentIndex) = some e →
      (claimSegment mgr now fileId streamType quality streamIndex segmentIndex s).1.acquired = false ∧
      (claimSegment mgr now fileId streamType quality streamIndex segmentIndex s).1.expiresAt = 0 ∧
      (claimSegment mgr now fileId streamType quality streamIndex segmentIndex s).2 = s ∧
      (∀ now₂ s₂, (claimSegment mgr now fileId streamType quality streamIndex segmentIndex s).1.extend mgr now₂ s₂ = (false, s₂)) ∧
      (∀ s₂, (claimSegment mgr now fileId streamType quality streamIndex segmentIndex s).1.release mgr s₂ = s₂)) ∧
    (s (lockPfx ++ getSegmentKey fileId streamType quality streamIndex segmentIndex) = none →
      (claimSegment mgr now fileId streamType quality streamIndex segmentIndex s).1.acquired = true ∧
      (claimSegment mgr' now' fileId streamType quality streamIndex segmentIndex
          (claimSegment mgr now fileId streamType quality streamIndex segmentIndex s).2).1.acquired = false) := by
  constructor
  · intro e he
    dsimp only [claimSegment]
    rw [he]
    refine ⟨rfl, rfl, rfl, ?_, ?_⟩
    · intro now₂ s₂
      simp [createFailedClaim, SegmentClaim.extend]
    · intro s₂
      simp [createFailedClaim, SegmentClaim.release]
  · intro he
    dsimp only [claimSegment]
    rw [he]
    dsimp only
    refine ⟨rfl, ?_⟩
    -- the second attempt's lock-key lookup skips the status write, then
    -- hits the lock record written by the first attempt
    rw [Store.get_set_ne _ _ _ _ _
      (lock_key_ne_status_key (getSegmentKey fileId streamType quality streamIndex segmentIndex))]
    rw [Store.get_set_self]
    rfl

/-- C1 witness: a concrete two-attempt run on an initially empty store. -/
theorem claimSegment_contention_spec_witness :
    ((fun _ => none : Store) (lockPfx ++ getSegmentKey "movie" "video" "1080p" 0 3) = none) ∧
    (claimSegment ⟨"w1", 60000, 1000⟩ 10 "movie" "video" "1080p" 0 3 (fun _ => none)).1.acquired = true ∧
    (claimSegment ⟨"w2", 60000, 1000⟩ 20 "movie" "video" "1080p" 0 3
      (claimSegment ⟨"w1", 60000, 1000⟩ 10 "movie" "video" "1080p" 0 3 (fun _ => none)).2).1.acquired = false :=
  ⟨rfl, (claimSegment_contention_spec ⟨"w1", 60000, 1000⟩ ⟨"w2", 60000, 1000⟩ 10 20
    "movie" "video" "1080p" 0 3 (fun _ => none)).2 rfl⟩

/-- C2: an acquired claim's `extend` returns `true`, rewrites the lock
record's `expiresAt` to `now + defaultTTL` and resets the TTL to the full
lease duration, exactly when the lock record exists and its stored owner is
the claiming worker's id; in every other case it returns `false` and leaves
the store unchanged. -/
theorem claim_extend_spec (mgr : RedisSegmentClaimManager)
    (segmentKey : String) (exp0 now : Nat) (s : Store) :
    (((createSuccessfulClaim mgr segmentKey exp0).extend mgr now s).1 = true ↔
       ∃ e px, s (lockPfx ++ segmentKey) = some ⟨RVal.lockRecord mgr.workerId e, px⟩) ∧
    (∀ e px, s (lockPfx ++ segmentKey) = some ⟨RVal.lockRecord mgr.workerId e, px⟩ →
       (createSuccessfulClaim mgr segmentKey exp0).extend mgr now s =
         (true, Store.set s (lockPfx ++ segmentKey)
           (RVal.lockRecord mgr.workerId (now + mgr.defaultTTL)) mgr.defaultTTL)) ∧
    (((createSuccessfulClaim mgr segmentKey exp0).extend mgr now s).1 = false →
       ((createSuccessfulClaim mgr segmentKey exp0).extend mgr now s).2 = s) := by
  have hext : ∀ e px, s (lockPfx ++ segmentKey) = some ⟨RVal.lockRecord mgr.workerId e, px⟩ →
      (createSuccessfulClaim mgr segmentKey exp0).extend mgr now s =
        (true, Store.set s (lockPfx ++ segmentKey)
          (RVal.lockRecord mgr.workerId (now + mgr.defaultTTL)) mgr.defaultTTL) := by
    intro e px h
    dsimp only [SegmentClaim.extend, createSuccessfulClaim]
    rw [extendScript_owner s _ _ _ _ e px h]
    rfl
  have hfail : (∀ e px, s (lockPfx ++ segmentKey) ≠ some ⟨RVal.lockRecord mgr.workerId e, px⟩) →
      (createSuccessfulClaim mgr segmentKey exp0).extend mgr now s = (false, s) := by
    intro h
    dsimp only [SegmentClaim.extend, createSuccessfulClaim]
    rw [extendScript_not_owner s _ _ _ _ h]
    rfl
  refine ⟨⟨?_, ?_⟩, hext, ?_⟩
  · intro h1
    by_contra hno
    push_neg at hno
    rw [hfail (fun e px => hno e px)] at h1
    simp at h1
  · rintro ⟨e, px, h⟩
    rw [hext e px h]
  · intro h1
    by_cases hx : ∃ e px, s (lockPfx ++ segmentKey) = some ⟨RVal.lockRecord mgr.workerId e, px⟩
    · rcases hx with ⟨e, px, h⟩
      rw [hext e px h] at h1
      simp at h1
    · push_neg at hx
      rw [hfail (fun e px => hx e px)]

/-- C2 witness: a concrete extend against a store holding the worker's own
lock record rewrites it with the new expiry and the full lease TTL. -/
theorem claim_extend_spec_witness :
    ((fun k => if k = lockPfx ++ "movie:video:1080p:0:3"
        then some ⟨RVal.lockRecord "w1" 60010, 60000⟩ else none : Store)
      (lockPfx ++ "movie:video:1080p:0:3") = some ⟨RVal.lockRecord "w1" 60010, 60000⟩) ∧
    (createSuccessfulClaim ⟨"w1", 60000, 1000⟩ "movie:video:1080p:0:3" 60010).extend
        ⟨"w1", 60000, 1000⟩ 500
        (fun k => if k = lockPfx ++ "movie:video:1080p:0:3"
          then some ⟨RVal.lockRecord "w1" 60010, 60000⟩ else none) =
      (true, Store.set
        (fun k => if k = lockPfx ++ "movie:video:1080p:0:3"
          then some ⟨RVal.lockRecord "w1" 60010, 60000⟩ else none)
        (lockPfx ++ "movie:video:1080p:0:3") (RVal.lockRecord "w1" (500 + 60000)) 60000) :=
  ⟨by simp, (claim_extend_spec ⟨"w1", 60000, 1000⟩ "movie:video:1080p:0:3" 60010 500
      (fun k => if k = lockPfx ++ "movie:video:1080p:0:3"
        then some ⟨RVal.lockRecord "w1" 60010, 60000⟩ else none)).2.1 60010 60000 (by simp)⟩

/-- C3: the release script deletes the lock record and returns the
success-count 1 when the stored owner matches the claiming worker's id, and
does nothing and returns 0 otherwise; an acquired claim's `release` applies
exactly this script's store effect (discarding the count). -/
theorem claim_release_spec (mgr : RedisSegmentClaimManager)
    (segmentKey : String) (exp0 : Nat) (s : Store) :
    (∀ e px, s (lockPfx ++ segmentKey) = some ⟨RVal.lockRecord mgr.workerId e, px⟩ →
       releaseScript s (lockPfx ++ segmentKey) mgr.workerId =
         (1, Store.del s (lockPfx ++ segmentKey))) ∧
    ((∀ e px, s (lockPfx ++ segmentKey) ≠ some ⟨RVal.lockRecord mgr.workerId e, px⟩) →
       releaseScript s (lockPfx ++ segmentKey) mgr.workerId = (0, s)) ∧
    ((createSuccessfulClaim mgr segmentKey exp0).release mgr s =
       (releaseScript s (lockPfx ++ segmentKey) mgr.workerId).2) := by
  refine ⟨?_, ?_, ?_⟩
  · intro e px h
    exact releaseScript_owner s _ _ e px h
  · intro h
    exact releaseScript_not_owner s _ _ h
  · rfl

/-- C3 witness: a concrete owned release deletes the lock record and the
script returns 1. -/
theorem claim_release_spec_witness :
    ((fun k => if k = lockPfx ++ "movie:video:1080p:0:3"
        then some ⟨RVal.lockRecord "w1" 60010, 60000⟩ else none : Store)
      (lockPfx ++ "movie:video:1080p:0:3") = some ⟨RVal.lockRecord "w1" 60010, 60000⟩) ∧
    releaseScript
        (fun k => if k = lockPfx ++ "movie:video:1080p:0:3"
          then some ⟨RVal.lockRecord "w1" 60010, 60000⟩ else none)
        (lockPfx ++ "movie:video:1080p:0:3") "w1" =
      (1, Store.del
        (fun k => if k = lockPfx ++ "movie:video:1080p:0:3"
          then some ⟨RVal.lockRecord "w1" 60010, 60000⟩ else none)
        (lockPfx ++ "movie:video:1080p:0:3")) :=
  ⟨by simp, (claim_release_spec ⟨"w1", 60000, 1000⟩ "movie:video:1080p:0:3" 60010
      (fun k => if k = lockPfx ++ "movie:video:1080p:0:3"
        then some ⟨RVal.lockRecord "w1" 60010, 60000⟩ else none)).1 60010 60000 (by simp)⟩

/-- C4: an acquired claim's `release` leaves every key other than the
segment's lock key unchanged — in particular the segment's status and
completion records — whether or not the owner check succeeds. -/
theorem claim_release_frame (mgr : RedisSegmentClaimManager)
    (segmentKey : String) (exp0 : Nat) (s : Store) (k : String)
    (h : k ≠ lockPfx ++ segmentKey) :
    (createSuccessfulClaim mgr segmentKey exp0).release mgr s k = s k ∧
    (createSuccessfulClaim mgr segmentKey exp0).release mgr s (statusPfx ++ segmentKey)
      = s (statusPfx ++ segmentKey) ∧
    (createSuccessfulClaim mgr segmentKey exp0).release mgr s (completedPfx ++ segmentKey)
      = s (completedPfx ++ segmentKey) := by
  have hrel : ∀ k', k' ≠ lockPfx ++ segmentKey →
      (createSuccessfulClaim mgr segmentKey exp0).release mgr s k' = s k' := by
    intro k' hk'
    dsimp only [SegmentClaim.release, createSuccessfulClaim]
    exact releaseScript_frame s _ _ _ hk'
  exact ⟨hrel k h, hrel _ (status_key_ne_lock_key segmentKey),
    hrel _ (completed_key_ne_lock_key segmentKey)⟩

/-- C4 witness: a concrete release against an owned lock leaves the status
record of the same segment in place. -/
theorem claim_release_frame_witness :
    (createSuccessfulClaim ⟨"w1", 60000, 1000⟩ "movie:video:1080p:0:3" 60010).release
        ⟨"w1", 60000, 1000⟩
        (fun k => if k = lockPfx ++ "movie:video:1080p:0:3"
          then some ⟨RVal.lockRecord "w1" 60010, 60000⟩ else
          if k = statusPfx ++ "movie:video:1080p:0:3"
          then some ⟨RVal.str "processing", 120000⟩ else none)
        (statusPfx ++ "movie:video:1080p:0:3")
      = (fun k => if k = lockPfx ++ "movie:video:1080p:0:3"
          then some ⟨RVal.lockRecord "w1" 60010, 60000⟩ else
          if k = statusPfx ++ "movie:video:1080p:0:3"
          then some ⟨RVal.str "processing", 120000⟩ else none : Store)
        (statusPfx ++ "movie:video:1080p:0:3") :=
  (claim_release_frame ⟨"w1", 60000, 1000⟩ "movie:video:1080p:0:3" 60010
    (fun k => if k = lockPfx ++ "movie:video:1080p:0:3"
      then some ⟨RVal.lockRecord "w1" 60010, 60000⟩ else
      if k = statusPfx ++ "movie:video:1080p:0:3"
      then some ⟨RVal.str "processing", 120000⟩ else none)
    (statusPfx ++ "movie:video:1080p:0:3")
    (status_key_ne_lock_key "movie:video:1080p:0:3")).2.1

/-- C10: ownership is keyed by `workerId` alone, not by claim instance:
whenever the current lock record's stored `workerId` equals the manager's
`workerId`, the `extend` of ANY acquired claim that manager created for the
segment — with any (possibly long-expired) `expiresAt` of its own —
succeeds, and the release script succeeds likewise, because the scripts
compare only the stored `workerId` with the manager's. -/
theorem ownership_keyed_by_workerId (mgr : RedisSegmentClaimManager)
    (segmentKey : String) (staleExp curExp px now : Nat) (s : Store)
    (h : s (lockPfx ++ segmentKey) = some ⟨RVal.lockRecord mgr.workerId curExp, px⟩) :
    (createSuccessfulClaim mgr segmentKey staleExp).workerId = mgr.workerId ∧
    ((createSuccessfulClaim mgr segmentKey staleExp).extend mgr now s).1 = true ∧
    (releaseScript s (lockPfx ++ segmentKey) mgr.workerId).1 = 1 := by
  refine ⟨rfl, ?_, ?_⟩
  · dsimp only [SegmentClaim.extend, createSuccessfulClaim]
    rw [extendScript_owner s _ _ _ _ curExp px h]
    rfl
  · rw [releaseScript_owner s _ _ curExp px h]

/-- C10 witness: the lock was re-acquired at time 200000 by the same
worker; a stale claim created earlier (its own lease long expired at
`expiresAt = 60010`) still extends successfully. -/
theorem ownership_keyed_by_workerId_witness :
    ((fun k => if k = lockPfx ++ "movie:video:1080p:0:3"
        then some ⟨RVal.lockRecord "w1" 260000, 60000⟩ else none : Store)
      (lockPfx ++ "movie:video:1080p:0:3") = some ⟨RVal.lockRecord "w1" 260000, 60000⟩) ∧
    ((createSuccessfulClaim ⟨"w1", 60000, 1000⟩ "movie:video:1080p:0:3" 60010).extend
        ⟨"w1", 60000, 1000⟩ 200000
        (fun k => if k = lockPfx ++ "movie:video:1080p:0:3"
          then some ⟨RVal.lockRecord "w1" 260000, 60000⟩ else none)).1 = true :=
  ⟨by simp, (ownership_keyed_by_workerId ⟨"w1", 60000, 1000⟩ "movie:video:1080p:0:3"
      60010 260000 60000 200000
      (fun k => if k = lockPfx ++ "movie:video:1080p:0:3"
        then some ⟨RVal.lockRecord "w1" 260000, 60000⟩ else none) (by simp)).2.1⟩

/-- C6: `markSegmentCompleted` followed by `isSegmentCompleted` on the same
identity returns `true` for every prior store state (no claim or lock
record required), and `isSegmentCompleted` returns `true` exactly when the
completion key holds the marker value `'true'`. -/
theorem mark_then_isSegmentCompleted (mgr : RedisSegmentClaimManager)
    (fileId streamType quality : String) (streamIndex segmentIndex : Nat)
    (s : Store) :
    isSegmentCompleted mgr fileId streamType quality streamIndex segmentIndex
      (markSegmentCompleted mgr fileId streamType quality streamIndex segmentIndex s) = true ∧
    (∀ s' : Store,
      isSegmentCompleted mgr fileId streamType quality streamIndex segmentIndex s' = true ↔
      ∃ px, s' (completedPfx ++ getSegmentKey fileId streamType quality streamIndex segmentIndex)
        = some ⟨RVal.str "true", px⟩) := by
  constructor
  · dsimp only [markSegmentCompleted, isSegmentCompleted]
    rw [Store.get_set_ne _ _ _ _ _
      (completed_key_ne_status_key (getSegmentKey fileId streamType quality streamIndex segmentIndex))]
    rw [Store.get_set_self]
    rfl
  · intro s'
    dsimp only [isSegmentCompleted]
    cases hs : s' (completedPfx ++ getSegmentKey fileId streamType quality streamIndex segmentIndex) with
    | none => simp
    | some entry =>
        cases entry with
        | mk v px =>
            simp only [beq_iff_eq, Option.some.injEq, Entry.mk.injEq]
            constructor
            · intro hv
              exact ⟨px, hv, rfl⟩
            · rintro ⟨px', hv, -⟩
              exact hv

/-- C6 witness: a concrete mark-then-query run on an initially empty
store, for an identity that never had any claim. -/
theorem mark_then_isSegmentCompleted_witness :
    isSegmentCompleted ⟨"w1", 60000, 604800000⟩ "movie" "video" "1080p" 0 3
      (markSegmentCompleted ⟨"w1", 60000, 604800000⟩ "movie" "video" "1080p" 0 3
        (fun _ => none)) = true :=
  (mark_then_isSegmentCompleted ⟨"w1", 60000, 604800000⟩ "movie" "video" "1080p" 0 3
    (fun _ => none)).1

theorem releaseSubscriber_disposed (st : PoolState) (sub : Subscriber)
    (h : st.disposed = true) : releaseSubscriber st sub = (st, true) := by
  unfold releaseSubscriber
  rw [h]
  rfl

theorem releaseSubscriber_pools (st : PoolState) (sub : Subscriber)
    (hd : st.disposed = false) (ho : sub.isOpen = true)
    (hlen : st.subscriberPool.length < poolSize) :
    releaseSubscriber st sub =
      ({ st with subscriberPool := st.subscriberPool ++ [sub] }, false) := by
  unfold releaseSubscriber
  rw [hd, ho]
  simp [hlen]

theorem releaseSubscriber_full (st : PoolState) (sub : Subscriber)
    (hd : st.disposed = false) (ho : sub.isOpen = true)
    (hlen : poolSize ≤ st.subscriberPool.length) :
    releaseSubscriber st sub = (st, true) := by
  unfold releaseSubscriber
  rw [hd, ho]
  have hn : ¬ st.subscriberPool.length < poolSize := by omega
  simp [hn]

theorem releaseAll_min_length (subs : List Subscriber) :
    ∀ st : PoolState, st.disposed = false → (∀ sub ∈ subs, sub.isOpen = true) →
      st.subscriberPool.length ≤ poolSize →
      (releaseAll st subs).subscriberPool.length =
        min (st.subscriberPool.length + subs.length) poolSize := by
  induction subs with
  | nil =>
      intro st _ _ hle
      simp only [releaseAll, List.foldl_nil, List.length_nil, Nat.add_zero]
      omega
  | cons sub rest ih =>
      intro st hd hopen hle
      have ho : sub.isOpen = true := hopen sub (List.mem_cons_self sub rest)
      have hrest : ∀ x ∈ rest, x.isOpen = true :=
        fun x hx => hopen x (List.mem_cons_of_mem sub hx)
      have hstep : releaseAll st (sub :: rest) =
          releaseAll (releaseSubscriber st sub).1 rest := rfl
      by_cases hlen : st.subscriberPool.length < poolSize
      · rw [hstep, releaseSubscriber_pools st sub hd ho hlen]
        dsimp only
        rw [ih { st with subscriberPool := st.subscriberPool ++ [sub] } hd hrest
          (by simp only [List.length_append, List.length_cons, List.length_nil]; omega)]
        simp only [List.length_append, List.length_cons, List.length_nil]
        omega
      · rw [hstep, releaseSubscriber_full st sub hd ho (by omega)]
        dsimp only
        rw [ih st hd hrest hle]
        simp only [List.length_cons]
        omega

/-- C7: the idle subscriber pool is bounded by the fixed capacity 5: every
pool operation preserves `length ≤ 5`; releasing a connected handle while
not disposed pools it exactly when the pool is below capacity and
disconnects it when full; and releasing enough open handles to overflow the
capacity retains exactly `poolSize` idle handles. -/
theorem subscriber_pool_capacity
    (st : PoolState) (op : PoolOp) (sub : Subscriber) (subs : List Subscriber)
    (hcap : st.subscriberPool.length ≤ poolSize)
    (hd : st.disposed = false) (ho : sub.isOpen = true)
    (hsubs : ∀ x ∈ subs, x.isOpen = true)
    (hover : poolSize ≤ st.subscriberPool.length + subs.length) :
    (poolStep st op).subscriberPool.length ≤ poolSize ∧
    (st.subscriberPool.length < poolSize →
      releaseSubscriber st sub =
        ({ st with subscriberPool := st.subscriberPool ++ [sub] }, false)) ∧
    (poolSize ≤ st.subscriberPool.length → releaseSubscriber st sub = (st, true)) ∧
    (releaseAll st subs).subscriberPool.length = poolSize := by
  refine ⟨?_, ?_, ?_, ?_⟩
  · cases op with
    | acquire freshId =>
        dsimp only [poolStep, getSubscriber]
        cases hlast : st.subscriberPool.getLast? with
        | none => exact hcap
        | some x =>
            by_cases hx : x.isOpen <;>
              simp [hx, List.length_dropLast] <;> omega
    | release s2 =>
        dsimp only [poolStep]
        unfold releaseSubscriber
        by_cases h1 : st.disposed = true
        · rw [h1]; simpa using hcap
        · have h1' : st.disposed = false := by
            cases h : st.disposed
            · rfl
            · exact absurd h h1
          rw [h1']
          by_cases h2 : s2.isOpen <;> by_cases h3 : st.subscriberPool.length < poolSize <;>
            simp [h2, h3] <;> omega
    | disposeOp => simp [poolStep, dispose]
  · intro hlen
    exact releaseSubscriber_pools st sub hd ho hlen
  · intro hlen
    exact releaseSubscriber_full st sub hd ho hlen
  · rw [releaseAll_min_length subs st hd hsubs hcap]
    omega

/-- C7 witness: releasing six open handles into an empty, live pool
retains exactly five. -/
theorem subscriber_pool_capacity_witness :
    (releaseAll ⟨[], false⟩
      [⟨1, true⟩, ⟨2, true⟩, ⟨3, true⟩, ⟨4, true⟩, ⟨5, true⟩, ⟨6, true⟩]).subscriberPool.length
      = poolSize :=
  (subscriber_pool_capacity ⟨[], false⟩ PoolOp.disposeOp ⟨1, true⟩
    [⟨1, true⟩, ⟨2, true⟩, ⟨3, true⟩, ⟨4, true⟩, ⟨5, true⟩, ⟨6, true⟩]
    (by decide) rfl rfl (by decide) (by decide)).2.2.2

theorem poolStep_preserves_disposed_empty (st : PoolState) (op : PoolOp)
    (h1 : st.disposed = true) (h2 : st.subscriberPool = []) :
    (poolStep st op).disposed = true ∧ (poolStep st op).subscriberPool = [] := by
  cases op with
  | acquire freshId =>
      dsimp only [poolStep, getSubscriber]
      rw [h2]
      exact ⟨h1, h2⟩
  | release sub =>
      dsimp only [poolStep]
      rw [releaseSubscriber_disposed st sub h1]
      exact ⟨h1, h2⟩
  | disposeOp => exact ⟨rfl, rfl⟩

theorem runPool_preserves_disposed_empty (ops : List PoolOp) :
    ∀ st : PoolState, st.disposed = true → st.subscriberPool = [] →
      (runPool st ops).disposed = true ∧ (runPool st ops).subscriberPool = [] := by
  induction ops with
  | nil => intro st h1 h2; exact ⟨h1, h2⟩
  | cons op rest ih =>
      intro st h1 h2
      have hstep := poolStep_preserves_disposed_empty st op h1 h2
      exact ih (poolStep st op) hstep.1 hstep.2

/-- C8: `dispose` sets the disposed flag, snapshots and clears the pool and
disconnects every open snapshotted handle; afterwards the pool is empty and
stays empty under every subsequent sequence of pool operations, and every
subsequent `releaseSubscriber` disconnects the handle and repopulates
nothing, so no handle is ever pooled again after disposal. -/
theorem dispose_empties_pool_forever (st : PoolState) (ops : List PoolOp) :
    (dispose st).1.disposed = true ∧
    (dispose st).1.subscriberPool = [] ∧
    (dispose st).2 = st.subscriberPool ∧
    (∀ sub ∈ (dispose st).2, sub.isOpen = true → sub ∈ disposeDisconnects st) ∧
    (runPool (dispose st).1 ops).disposed = true ∧
    (runPool (dispose st).1 ops).subscriberPool = [] ∧
    (∀ sub, releaseSubscriber (runPool (dispose st).1 ops) sub =
      (runPool (dispose st).1 ops, true)) := by
  have hrun := runPool_preserves_disposed_empty ops (dispose st).1 rfl rfl
  refine ⟨rfl, rfl, rfl, ?_, hrun.1, hrun.2, ?_⟩
  · intro sub hmem hopen
    dsimp only [disposeDisconnects]
    rw [List.mem_filter]
    exact ⟨hmem, hopen⟩
  · intro sub
    exact releaseSubscriber_disposed _ sub hrun.1

/-- C8 witness: after disposing a pool holding two idle handles, running
further operations (an acquire and a release of an open handle) leaves the
idle pool empty, and a release against the disposed pool disconnects. -/
theorem dispose_empties_pool_forever_witness :
    (runPool (dispose ⟨[⟨1, true⟩, ⟨2, true⟩], false⟩).1
      [PoolOp.acquire 7, PoolOp.release ⟨7, true⟩]).subscriberPool = [] ∧
    releaseSubscriber (runPool (dispose ⟨[⟨1, true⟩, ⟨2, true⟩], false⟩).1
        [PoolOp.acquire 7, PoolOp.release ⟨7, true⟩]) ⟨9, true⟩ =
      (runPool (dispose ⟨[⟨1, true⟩, ⟨2, true⟩], false⟩).1
        [PoolOp.acquire 7, PoolOp.release ⟨7, true⟩], true) :=
  ⟨(dispose_empties_pool_forever ⟨[⟨1, true⟩, ⟨2, true⟩], false⟩
      [PoolOp.acquire 7, PoolOp.release ⟨7, true⟩]).2.2.2.2.2.1,
   (dispose_empties_pool_forever ⟨[⟨1, true⟩, ⟨2, true⟩], false⟩
      [PoolOp.acquire 7, PoolOp.release ⟨7, true⟩]).2.2.2.2.2.2 ⟨9, true⟩⟩

/-- C9: if subscription setup fails, the acquired handle first goes through
`releaseSubscriber` (pooled or disconnected — never leaked) and the same
error is re-raised to the caller; on success the installed handler invokes
the callback exactly for messages equal to `'completed'`. -/
theorem subscribe_error_release_spec :
    (∀ (st : PoolState) (freshId : Nat) (fileId streamType quality : String)
       (streamIndex segmentIndex : Nat) (e : Nat),
       subscribeToSegmentComplete st freshId fileId streamType quality
           streamIndex segmentIndex (some e) =
         (Except.error e,
          (releaseSubscriber (getSubscriber st freshId).1 (getSubscriber st freshId).2).1,
          (releaseSubscriber (getSubscriber st freshId).1 (getSubscriber st freshId).2).2)) ∧
    (∀ (st : PoolState) (sub : Subscriber),
       (releaseSubscriber st sub).2 = true ∨
         sub ∈ (releaseSubscriber st sub).1.subscriberPool) ∧
    (∀ (st : PoolState) (freshId : Nat) (fileId streamType quality : String)
       (streamIndex segmentIndex : Nat),
       subscribeToSegmentComplete st freshId fileId streamType quality
           streamIndex segmentIndex none =
         (Except.ok ((getSubscriber st freshId).2,
            completeChannelPfx ++ getSegmentKey fileId streamType quality streamIndex segmentIndex,
            messageHandler), (getSubscriber st freshId).1, false)) ∧
    (∀ m : String, messageHandler m = true ↔ m = "completed") := by
  refine ⟨fun _ _ _ _ _ _ _ _ => rfl, ?_, fun _ _ _ _ _ _ _ => rfl, ?_⟩
  · intro st sub
    unfold releaseSubscriber
    by_cases h1 : (st.disposed || !sub.isOpen) = true
    · rw [if_pos h1]
      exact Or.inl rfl
    · rw [if_neg h1]
      by_cases h2 : st.subscriberPool.length < poolSize
      · rw [if_pos h2]
        exact Or.inr (by simp)
      · rw [if_neg h2]
        exact Or.inl rfl
  · intro m
    dsimp only [messageHandler]
    exact beq_iff_eq

/-- C9 witness: a concrete failed subscription on an empty live pool
surfaces the error after releasing the freshly created handle. -/
theorem subscribe_error_release_spec_witness :
    subscribeToSegmentComplete ⟨[], false⟩ 7 "movie" "video" "1080p" 0 3 (some 42) =
      (Except.error 42,
       (releaseSubscriber (getSubscriber ⟨[], false⟩ 7).1 (getSubscriber ⟨[], false⟩ 7).2).1,
       (releaseSubscriber (getSubscriber ⟨[], false⟩ 7).1 (getSubscriber ⟨[], false⟩ 7).2).2) :=
  subscribe_error_release_spec.1 ⟨[], false⟩ 7 "movie" "video" "1080p" 0 3 42

theorem digitChar_ne_colon (n : Nat) : Nat.digitChar n ≠ ':' := by
  unfold Nat.digitChar
  by_cases h0 : n = 0 <;> simp [h0] <;>
  by_cases h1 : n = 1 <;> simp [h1] <;>
  by_cases h2 : n = 2 <;> simp [h2] <;>
  by_cases h3 : n = 3 <;> simp [h3] <;>
  by_cases h4 : n = 4 <;> simp [h4] <;>
  by_cases h5 : n = 5 <;> simp [h5] <;>
  by_cases h6 : n = 6 <;> simp [h6] <;>
  by_cases h7 : n = 7 <;> simp [h7] <;>
  by_cases h8 : n = 8 <;> simp [h8] <;>
  by_cases h9 : n = 9 <;> simp [h9] <;>
  by_cases ha : n = 0xa <;> simp [ha] <;>
  by_cases hb : n = 0xb <;> simp [hb] <;>
  by_cases hc : n = 0xc <;> simp [hc] <;>
  by_cases hd : n = 0xd <;> simp [hd] <;>
  by_cases he : n = 0xe <;> simp [he] <;>
  by_cases hf : n = 0xf <;> simp [hf]

theorem digitChar_injOn_lt10 :
    ∀ a, a < 10 → ∀ b, b < 10 → Nat.digitChar a = Nat.digitChar b → a = b := by
  decide

theorem mem_toDigitsCore_cases (b : Nat) :
    ∀ (fuel n : Nat) (ds : List Char) (c : Char),
      c ∈ Nat.toDigitsCore b fuel n ds → c ∈ ds ∨ ∃ k, c = Nat.digitChar k := by
  intro fuel
  induction fuel with
  | zero => intro n ds c h; exact Or.inl h
  | succ fuel ih =>
      intro n ds c h
      unfold Nat.toDigitsCore at h
      by_cases hz : n / b = 0
      · rw [if_pos hz] at h
        rcases List.mem_cons.1 h with hc | hc
        · exact Or.inr ⟨n % b, hc⟩
        · exact Or.inl hc
      · rw [if_neg hz] at h
        rcases ih (n / b) (Nat.digitChar (n % b) :: ds) c h with hc | hc
        · rcases List.mem_cons.1 hc with hc' | hc'
          · exact Or.inr ⟨n % b, hc'⟩
          · exact Or.inl hc'
        · exact Or.inr hc

theorem toDigitsCore_append (b : Nat) :
    ∀ (fuel n : Nat) (ds : List Char),
      Nat.toDigitsCore b fuel n ds = Nat.toDigitsCore b fuel n [] ++ ds := by
  intro fuel
  induction fuel with
  | zero => intro n ds; rfl
  | succ fuel ih =>
      intro n ds
      unfold Nat.toDigitsCore
      by_cases hz : n / b = 0
      · rw [if_pos hz, if_pos hz]
        rfl
      · rw [if_neg hz, if_neg hz,
          ih (n / b) (Nat.digitChar (n % b) :: ds),
          ih (n / b) [Nat.digitChar (n % b)]]
        rw [List.append_assoc]
        rfl

theorem toDigitsCore_fuel_irrel (b : Nat) (hb : 2 ≤ b) :
    ∀ (fuel₁ fuel₂ n : Nat) (ds : List Char), n < fuel₁ → n < fuel₂ →
      Nat.toDigitsCore b fuel₁ n ds = Nat.toDigitsCore b fuel₂ n ds := by
  intro fuel₁
  induction fuel₁ with
  | zero => intro fuel₂ n ds h1 _; omega
  | succ f ih =>
      intro fuel₂ n ds h1 h2
      cases fuel₂ with
      | zero => omega
      | succ g =>
          unfold Nat.toDigitsCore
          by_cases hz : n / b = 0
          · rw [if_pos hz, if_pos hz]
          · rw [if_neg hz, if_neg hz]
            have hn : 0 < n := by
              rcases Nat.eq_zero_or_pos n with rfl | h
              · exact absurd (Nat.zero_div b) hz
              · exact h
            have hdiv : n / b < n := Nat.div_lt_self hn (by omega)
            exact ih g (n / b) _ (by omega) (by omega)

theorem toDigits_eq_of_lt10 (n : Nat) (h : n < 10) :
    Nat.toDigits 10 n = [Nat.digitChar n] := by
  unfold Nat.toDigits Nat.toDigitsCore
  have hz : n / 10 = 0 := Nat.div_eq_of_lt h
  rw [if_pos hz, Nat.mod_eq_of_lt h]

theorem toDigits_eq_of_ge10 (n : Nat) (h : 10 ≤ n) :
    Nat.toDigits 10 n = Nat.toDigits 10 (n / 10) ++ [Nat.digitChar (n % 10)] := by
  have hz : n / 10 ≠ 0 := by
    have h10 : 10 * 1 ≤ n := by omega
    have := (Nat.le_div_iff_mul_le (by omega : 0 < 10)).2 (by omega : 1 * 10 ≤ n)
    omega
  conv_lhs => unfold Nat.toDigits Nat.toDigitsCore
  rw [if_neg hz]
  rw [toDigitsCore_append 10 n (n / 10) [Nat.digitChar (n % 10)]]
  unfold Nat.toDigits
  have hd1 : n / 10 < n := Nat.div_lt_self (by omega) (by omega)
  rw [toDigitsCore_fuel_irrel 10 (by omega) n (n / 10 + 1) (n / 10) []
    (by omega) (Nat.lt_succ_self _)]

theorem toDigits_ne_nil (n : Nat) : Nat.toDigits 10 n ≠ [] := by
  rcases Nat.lt_or_ge n 10 with h | h
  · rw [toDigits_eq_of_lt10 n h]
    exact List.cons_ne_nil _ _
  · rw [toDigits_eq_of_ge10 n h]
    exact List.append_ne_nil_of_right_ne_nil _ (List.cons_ne_nil _ _)

theorem toDigits_injective :
    ∀ n m : Nat, Nat.toDigits 10 n = Nat.toDigits 10 m → n = m := by
  intro n
  induction n using Nat.strong_induction_on with
  | _ n ih =>
      intro m h
      rcases Nat.lt_or_ge n 10 with hn | hn <;> rcases Nat.lt_or_ge m 10 with hm | hm
      · rw [toDigits_eq_of_lt10 n hn, toDigits_eq_of_lt10 m hm] at h
        exact digitChar_injOn_lt10 n hn m hm (List.cons.inj h).1
      · rw [toDigits_eq_of_lt10 n hn, toDigits_eq_of_ge10 m hm] at h
        have hl := congrArg List.length h
        simp only [List.length_cons, List.length_append, List.length_nil] at hl
        have : Nat.toDigits 10 (m / 10) = [] :=
          List.length_eq_zero.1 (by omega)
        exact absurd this (toDigits_ne_nil (m / 10))
      · rw [toDigits_eq_of_ge10 n hn, toDigits_eq_of_lt10 m hm] at h
        have hl := congrArg List.length h
        simp only [List.length_cons, List.length_append, List.length_nil] at hl
        have : Nat.toDigits 10 (n / 10) = [] :=
          List.length_eq_zero.1 (by omega)
        exact absurd this (toDigits_ne_nil (n / 10))
      · rw [toDigits_eq_of_ge10 n hn, toDigits_eq_of_ge10 m hm] at h
        have hsplit := List.append_inj' h rfl
        have hdig : n % 10 = m % 10 :=
          digitChar_injOn_lt10 (n % 10) (Nat.mod_lt n (by omega)) (m % 10)
            (Nat.mod_lt m (by omega)) (List.cons.inj hsplit.2).1
        have hdiv : n / 10 = m / 10 :=
          ih (n / 10) (Nat.div_lt_self (by omega) (by omega)) (m / 10) hsplit.1
        omega

theorem natRepr_injective (n m : Nat) (h : Nat.repr n = Nat.repr m) : n = m :=
  toDigits_injective n m (congrArg String.data h)

theorem colon_not_mem_repr (n : Nat) : ':' ∉ (Nat.repr n).data := by
  intro h
  have h2 : ':' ∈ Nat.toDigits 10 n := h
  rcases mem_toDigitsCore_cases 10 (n + 1) n [] ':' h2 with h3 | ⟨k, hk⟩
  · exact absurd h3 (List.not_mem_nil ':')
  · exact digitChar_ne_colon k hk.symm

theorem append_sep_inj (sep : Char) :
    ∀ (xs₁ xs₂ ys₁ ys₂ : List Char), sep ∉ xs₁ → sep ∉ xs₂ →
      xs₁ ++ sep :: ys₁ = xs₂ ++ sep :: ys₂ → xs₁ = xs₂ ∧ ys₁ = ys₂ := by
  intro xs₁
  induction xs₁ with
  | nil =>
      intro xs₂ ys₁ ys₂ _ h2 h
      cases xs₂ with
      | nil => simpa using h
      | cons b t =>
          rw [List.nil_append, List.cons_append] at h
          have hb := (List.cons.inj h).1
          exact absurd (hb ▸ List.mem_cons_self b t) h2
  | cons a t ih =>
      intro xs₂ ys₁ ys₂ h1 h2 h
      cases xs₂ with
      | nil =>
          rw [List.nil_append, List.cons_append] at h
          have ha := (List.cons.inj h).1
          exact absurd (ha ▸ List.mem_cons_self a t) h1
      | cons b t₂ =>
          rw [List.cons_append, List.cons_append] at h
          obtain ⟨hab, hrest⟩ := List.cons.inj h
          have hsub := ih t₂ ys₁ ys₂
            (fun hm => h1 (List.mem_cons_of_mem a hm))
            (fun hm => h2 (List.mem_cons_of_mem b hm)) hrest
          exact ⟨by rw [hab, hsub.1], hsub.2⟩

/-- C5: `getSegmentKey` joins the five identity fields with `':'` in the
order fileId, streamType, quality, streamIndex, segmentIndex, and is
injective over identity tuples whose string fields contain no `':'`: two
such tuples produce the same segment key only if all five fields agree. -/
theorem getSegmentKey_join_injective
    (f₁ t₁ q₁ : String) (si₁ gi₁ : Nat) (f₂ t₂ q₂ : String) (si₂ gi₂ : Nat)
    (hf₁ : ':' ∉ f₁.data) (ht₁ : ':' ∉ t₁.data) (hq₁ : ':' ∉ q₁.data)
    (hf₂ : ':' ∉ f₂.data) (ht₂ : ':' ∉ t₂.data) (hq₂ : ':' ∉ q₂.data)
    (h : getSegmentKey f₁ t₁ q₁ si₁ gi₁ = getSegmentKey f₂ t₂ q₂ si₂ gi₂) :
    (getSegmentKey f₁ t₁ q₁ si₁ gi₁).data =
      f₁.data ++ ':' :: (t₁.data ++ ':' :: (q₁.data ++ ':' :: ((Nat.repr si₁).data
        ++ ':' :: (Nat.repr gi₁).data))) ∧
    f₁ = f₂ ∧ t₁ = t₂ ∧ q₁ = q₂ ∧ si₁ = si₂ ∧ gi₁ = gi₂ := by
  have hd := congrArg String.data h
  simp only [getSegmentKey, String.data_append, List.append_assoc,
    List.singleton_append] at hd
  obtain ⟨hf, hd⟩ := append_sep_inj ':' _ _ _ _ hf₁ hf₂ hd
  obtain ⟨ht, hd⟩ := append_sep_inj ':' _ _ _ _ ht₁ ht₂ hd
  obtain ⟨hq, hd⟩ := append_sep_inj ':' _ _ _ _ hq₁ hq₂ hd
  obtain ⟨hsi, hgi⟩ := append_sep_inj ':' _ _ _ _
    (colon_not_mem_repr si₁) (colon_not_mem_repr si₂) hd
  refine ⟨?_, String.ext hf, String.ext ht, String.ext hq, ?_, ?_⟩
  · simp [getSegmentKey, List.append_assoc]
  · exact toDigits_injective si₁ si₂ hsi
  · exact toDigits_injective gi₁ gi₂ hgi

/-- C5 witness: a concrete pair of colon-free identity tuples with equal
segment keys, from which the theorem recovers equality of all five
fields. -/
theorem getSegmentKey_join_injective_witness :
    "movie" = "movie" ∧ "video" = "video" ∧ "1080p" = "1080p" ∧
      (0 : Nat) = 0 ∧ (3 : Nat) = 3 :=
  (getSegmentKey_join_injective "movie" "video" "1080p" 0 3 "movie" "video" "1080p" 0 3
    (by decide) (by decide) (by decide) (by decide) (by decide) (by decide) rfl).2
